import Mathlib

/-!
Verification of the March Madness bracket simulator (predict.py).

The Python source is shallowly embedded: floats become rationals, the
mutable bracket objects become values threaded through the functions, and
randomness is modelled by a stream of unit draws `d : Nat -> Rat`; the call
`random.uniform(0, odds_range)` at stream position `i` is modelled as
`d i * odds_range` (uniform over an interval scales a unit draw).  Python
exceptions become `Except PyErr`.
-/

set_option maxHeartbeats 1000000
set_option maxRecDepth 10000

namespace Predict

/-- Python runtime errors raised by the simulator.  The source raises plain
`Exception` objects with messages; the spec taxonomy calls the bracket-shape
ones `StructuralError`.  `typeError` stands for `TypeError` (arithmetic on
`None`, or `None` where an object is needed), `indexError` for
`IndexError`/`KeyError` on a missing round entry, `zeroDivision` for float
division by zero. -/
inductive PyErr where
  | structural (msg : String)
  | typeError
  | indexError
  | zeroDivision
  deriving DecidableEq

/-- Embeds class `Team` of predict.py.  `round_odds` holds the up-to-7
per-round cumulative advancement probabilities, `none` standing for a blank
field in the input.  `conditional_round_odds` is the derived conditional
table stored by `Team.init_from_line`.  `seed_slot` is the mutable
effective-seed; in this value embedding a team with an updated slot is a new
value. -/
structure Team where
  name : String
  region : String
  seed : Int
  round_odds : List (Option Rat)
  conditional_round_odds : List (Option Rat)
  seed_slot : Int
  deriving DecidableEq

/-- Embeds `Team.__getitem__`: `return self.round_odds[i-1]` (rounds are
1-indexed).  Callers always pass a round in 1..7; the Python negative-index
case `i = 0` is unreachable and `List` out-of-range indexing is merged with
a stored `None` into the `none` result (either way `pick_winner` faults). -/
def Team.getitem (t : Team) (i : Nat) : Option Rat :=
  (t.round_odds[i - 1]?).join

/-- Lookup into the stored conditional table, used only by the definition
that follows the wording of the spec (`pick_winner_spec`); the source never
reads `conditional_round_odds`. -/
def Team.getitem_conditional (t : Team) (i : Nat) : Option Rat :=
  (t.conditional_round_odds[i - 1]?).join

/-- Embeds `Team.reset_seed_slot`: `self.seed_slot = self.seed`. -/
def Team.reset (t : Team) : Team :=
  { t with seed_slot := t.seed }

/-- Embeds `Team.copy`: duplicates the team with the seed slot reset to the
initial seed. -/
def Team.copy (t : Team) : Team :=
  { t with seed_slot := t.seed }

/-- Embeds function `pick_winner(team1, team2, round_number)`.  The
probabilities are looked up through `__getitem__`, hence from `round_odds`
(the cumulative table).  `u` is the unit draw: `num = u * odds_range`
models `random.uniform(0, odds_range)`.  A draw at or below the first
probability selects team 1; the loser's initial `seed` overwrites the
winner's `seed_slot` when numerically smaller.  A `none` lookup models the
Python `TypeError` from `None + float`. -/
def pick_winner (t1 t2 : Team) (round_number : Nat) (u : Rat) : Except PyErr Team :=
  match t1.getitem round_number, t2.getitem round_number with
  | some p1, some p2 =>
    let odds_range := p1 + p2
    let num := u * odds_range
    if num ≤ p1 then
      Except.ok (if t2.seed < t1.seed_slot then { t1 with seed_slot := t2.seed } else t1)
    else
      Except.ok (if t1.seed < t2.seed_slot then { t2 with seed_slot := t1.seed } else t2)
  | _, _ => Except.error PyErr.typeError

/-- Follows the wording of the spec for the matchup resolver: identical to
`pick_winner` except that each probability looked up is the CONDITIONAL
probability for the round.  Used to compare the spec against the source,
which indexes `round_odds` instead. -/
def pick_winner_spec (t1 t2 : Team) (round_number : Nat) (u : Rat) : Except PyErr Team :=
  match t1.getitem_conditional round_number, t2.getitem_conditional round_number with
  | some p1, some p2 =>
    let odds_range := p1 + p2
    let num := u * odds_range
    if num ≤ p1 then
      Except.ok (if t2.seed < t1.seed_slot then { t1 with seed_slot := t2.seed } else t1)
    else
      Except.ok (if t1.seed < t2.seed_slot then { t2 with seed_slot := t1.seed } else t2)
  | _, _ => Except.error PyErr.typeError

/-- One step of the conditional-probability loop in `Team.init_from_line`.
The second argument tracks `round_odds[i-1]` (`none` when `i = 0`).
Python faults on `None / x` (`TypeError`) and on `x / 0.0`
(`ZeroDivisionError`); both are modelled explicitly. -/
def cond_loop : List (Option Rat) → Option (Option Rat) → Except PyErr (List (Option Rat))
  | [], _ => Except.ok []
  | odd :: rest, prev =>
    match prev with
    | none =>
      match cond_loop rest (some odd) with
      | Except.error e => Except.error e
      | Except.ok c => Except.ok (odd :: c)
    | some prev_round =>
      match prev_round with
      | none =>
        match cond_loop rest (some odd) with
        | Except.error e => Except.error e
        | Except.ok c => Except.ok (odd :: c)
      | some p =>
        match odd with
        | none => Except.error PyErr.typeError
        | some q =>
          if p = 0 then Except.error PyErr.zeroDivision
          else
            match cond_loop rest (some odd) with
            | Except.error e => Except.error e
            | Except.ok c => Except.ok (some (q / p) :: c)

/-- Embeds the `# Make the probabilities conditional` loop of
`Team.init_from_line`, deriving `conditional_round_odds` from
`round_odds`. -/
def make_conditional (round_odds : List (Option Rat)) : Except PyErr (List (Option Rat)) :=
  cond_loop round_odds none

/-- Sort key `operator.attrgetter('seed_slot')`, ascending. -/
def slot_le (a b : Team) : Prop := a.seed_slot ≤ b.seed_slot

/-- Sort key `seed_slot` with `reverse=True` (stable descending). -/
def slot_ge (a b : Team) : Prop := b.seed_slot ≤ a.seed_slot

/-- Sort key `operator.attrgetter('seed')`, ascending. -/
def seed_le (a b : Team) : Prop := a.seed ≤ b.seed

instance : DecidableRel slot_le := fun a b =>
  inferInstanceAs (Decidable (a.seed_slot ≤ b.seed_slot))

instance : DecidableRel slot_ge := fun a b =>
  inferInstanceAs (Decidable (b.seed_slot ≤ a.seed_slot))

instance : DecidableRel seed_le := fun a b =>
  inferInstanceAs (Decidable (a.seed ≤ b.seed))

instance : IsTotal Team slot_le := ⟨fun a b => Int.le_total a.seed_slot b.seed_slot⟩

instance : IsTrans Team slot_le := ⟨fun _ _ _ h1 h2 => le_trans h1 h2⟩

instance : IsTotal Team slot_ge := ⟨fun a b => Int.le_total b.seed_slot a.seed_slot⟩

instance : IsTrans Team slot_ge := ⟨fun _ _ _ h1 h2 => le_trans h2 h1⟩

instance : IsTotal Team seed_le := ⟨fun a b => Int.le_total a.seed b.seed⟩

instance : IsTrans Team seed_le := ⟨fun _ _ _ h1 h2 => le_trans h1 h2⟩

/-- Embeds the `round2_teams` grouping in `Region.simulate`: teams grouped
by initial seed.  CPython iterates the small-int-keyed dict in ascending
key order, so the groups are listed by ascending seed; each group keeps the
original team order. -/
def seedGroups (ts : List Team) : List (Int × List Team) :=
  (List.insertionSort (fun a b : Int => a ≤ b) (ts.map Team.seed).dedup).map
    (fun s => (s, ts.filter (fun t => decide (t.seed = s))))

/-- Embeds the play-in resolution loop of `Region.simulate`: a seed with two
entrants is resolved by `pick_winner` at round 1, a seed with one entrant
advances, any other count raises the structural error
`Incorrect number of teams for seed %d`. -/
def playin : List (Int × List Team) → (Nat → Rat) → Nat → Except PyErr (List Team × Nat)
  | [], _, i => Except.ok ([], i)
  | (s, g) :: rest, d, i =>
    match g with
    | [t] =>
      match playin rest d i with
      | Except.error e => Except.error e
      | Except.ok (ts, i2) => Except.ok (t :: ts, i2)
    | [t1, t2] =>
      match pick_winner t1 t2 1 (d i) with
      | Except.error e => Except.error e
      | Except.ok w =>
        match playin rest d (i + 1) with
        | Except.error e => Except.error e
        | Except.ok (ts, i2) => Except.ok (w :: ts, i2)
    | _ => Except.error (PyErr.structural ("Incorrect number of teams for seed " ++ toString s))

/-- Embeds the `for team1,team2 in zip(high_seeds,low_seeds)` loop: each
pair is resolved by `pick_winner` at the given round, consuming one draw
per matchup. -/
def runMatchups : List (Team × Team) → Nat → (Nat → Rat) → Nat → Except PyErr (List Team × Nat)
  | [], _, _, i => Except.ok ([], i)
  | (t1, t2) :: rest, rn, d, i =>
    match pick_winner t1 t2 rn (d i) with
    | Except.error e => Except.error e
    | Except.ok w =>
      match runMatchups rest rn d (i + 1) with
      | Except.error e => Except.error e
      | Except.ok (ws, i2) => Except.ok (w :: ws, i2)

/-- The pairing of the standard-round loop of `Region.simulate`: previous
survivors sorted by `seed_slot` ascending, split at
`len(prev_round_teams)/2` (Python floor division), second half re-sorted by
`seed_slot` descending, then `zip`-paired index for index (silently
dropping an unpaired entrant when the halves differ in size). -/
def roundPairs (prev : List Team) : List (Team × Team) :=
  let prev_sorted := List.insertionSort slot_le prev
  let half_num_teams := prev_sorted.length / 2
  let high_seeds := prev_sorted.take half_num_teams
  let low_seeds := List.insertionSort slot_ge (prev_sorted.drop half_num_teams)
  high_seeds.zip low_seeds

/-- Embeds the body of the standard-round loop of `Region.simulate`: the
matchups of `roundPairs` are resolved and the winners sorted by initial
`seed`. -/
def regionRound (prev : List Team) (rn : Nat) (d : Nat → Rat) (i : Nat) :
    Except PyErr (List Team × Nat) :=
  match runMatchups (roundPairs prev) rn d i with
  | Except.error e => Except.error e
  | Except.ok (ws, i2) => Except.ok (List.insertionSort seed_le ws, i2)

/-- Follows the wording of the spec for a standard round: sort the previous
survivors by effective-seed ascending, split into a first (high-seed) half
and second (low-seed) half, re-sort the low half by effective-seed
descending, pair index-for-index, resolve each pair with the matchup
resolver, and sort the resulting survivors by initial seed ascending. -/
def standardRoundSpec (survivors : List Team) (rn : Nat) (d : Nat → Rat) (i : Nat) :
    Except PyErr (List Team × Nat) :=
  let by_effective := List.insertionSort slot_le survivors
  let high_half := by_effective.take (by_effective.length / 2)
  let low_half := by_effective.drop (by_effective.length / 2)
  let low_desc := List.insertionSort slot_ge low_half
  match runMatchups (high_half.zip low_desc) rn d i with
  | Except.error e => Except.error e
  | Except.ok (winners, i2) => Except.ok (List.insertionSort seed_le winners, i2)

/-- Embeds `max_region_round = 5`. -/
def max_region_round : Nat := 5

/-- Embeds class `Region`.  `teams_by_round` is the dict from round number
to the surviving teams of that round, kept as an association list in
insertion order (keys 1..5 after a simulation). -/
structure Region where
  name : String
  teams : List Team
  teams_by_round : List (Nat × List Team)
  deriving DecidableEq

/-- Embeds `Region.copy`: duplicates the teams (with reset seed slots) and
clears the stored simulation results. -/
def Region.copy (r : Region) : Region :=
  { name := r.name, teams := r.teams.map Team.copy, teams_by_round := [] }

/-- Embeds `Region.simulate`: clears `teams_by_round`, resets every seed
slot, resolves the play-in round, then the standard rounds
`xrange(2, max_region_round+1)` (unrolled here for the constant
`max_region_round = 5`), recording each round's survivors.  The source
later re-sorts stored round lists in place while preparing the next round;
this value embedding records the list each round holds at recording time,
which is what every downstream read observes at that point. -/
def Region.simulate (r : Region) (d : Nat → Rat) (i : Nat) : Except PyErr (Region × Nat) :=
  let ts := r.teams.map Team.reset
  match playin (seedGroups ts) d i with
  | Except.error e => Except.error e
  | Except.ok (l1, j1) =>
    match regionRound l1 2 d j1 with
    | Except.error e => Except.error e
    | Except.ok (l2, j2) =>
      match regionRound l2 3 d j2 with
      | Except.error e => Except.error e
      | Except.ok (l3, j3) =>
        match regionRound l3 4 d j3 with
        | Except.error e => Except.error e
        | Except.ok (l4, j4) =>
          match regionRound l4 5 d j4 with
          | Except.error e => Except.error e
          | Except.ok (l5, j5) =>
            Except.ok ({ r with
                         teams := ts
                         teams_by_round := [(1, l1), (2, l2), (3, l3), (4, l4), (5, l5)] }, j5)

/-- Embeds class `Bracket`.  `regions` is the dict of regions as a list in
iteration order. -/
structure Bracket where
  regions : List Region
  finalists : Option (List Team)
  champion : Option Team
  deriving DecidableEq

/-- Embeds `Bracket.copy`. -/
def Bracket.copy (b : Bracket) : Bracket :=
  { regions := b.regions.map Region.copy
    finalists := b.finalists.map (fun fs => fs.map Team.copy)
    champion := b.champion.map Team.copy }

/-- Embeds `region.teams_by_round[5][0]`: the winner of a simulated
region.  A missing round-5 entry or an empty round-5 list is the Python
`KeyError`/`IndexError`. -/
def regionWinner (r2 : Region) : Except PyErr Team :=
  match (r2.teams_by_round.lookup 5).bind List.head? with
  | none => Except.error PyErr.indexError
  | some t => Except.ok t

/-- Embeds the name dispatch of the region loop of `Bracket.simulate`: the
winner is assigned to the `midwest`/`south`/`east`/`west` variable matching
the region name; an unrecognized name raises the structural error
`Region "%s" not recognized`. -/
def assignWinner (rname : String) (winner : Team) (mw s e w : Option Team) :
    Except PyErr (Option Team × Option Team × Option Team × Option Team) :=
  if rname = "Midwest" then Except.ok (some winner, s, e, w)
  else if rname = "South" then Except.ok (mw, some winner, e, w)
  else if rname = "East" then Except.ok (mw, s, some winner, w)
  else if rname = "West" then Except.ok (mw, s, e, some winner)
  else Except.error (PyErr.structural ("Region " ++ rname ++ " not recognized"))

/-- Embeds the region loop of `Bracket.simulate`: each region is simulated,
its winner extracted and assigned by name, and the four winner slots are
threaded through the loop. -/
def simRegions : List Region → Option Team → Option Team → Option Team → Option Team →
    (Nat → Rat) → Nat →
    Except PyErr (List Region × (Option Team × Option Team × Option Team × Option Team) × Nat)
  | [], mw, s, e, w, _, i => Except.ok ([], (mw, s, e, w), i)
  | r :: rest, mw, s, e, w, d, i =>
    match Region.simulate r d i with
    | Except.error err => Except.error err
    | Except.ok (r2, i2) =>
      match regionWinner r2 with
      | Except.error err => Except.error err
      | Except.ok winner =>
        match assignWinner r2.name winner mw s e w with
        | Except.error err => Except.error err
        | Except.ok (mw2, s2, e2, w2) =>
          match simRegions rest mw2 s2 e2 w2 d i2 with
          | Except.error err => Except.error err
          | Except.ok (rs, tup, i3) => Except.ok (r2 :: rs, tup, i3)

/-- Embeds `Bracket.simulate`: every region resolved to a winner, the
Midwest winner against the West winner and the South winner against the
East winner at round 6, the two finalists against each other at round 7.  A
region winner left unassigned (its name never matched) reaches
`pick_winner` as Python `None` and faults with a `TypeError`. -/
def Bracket.simulate (b : Bracket) (d : Nat → Rat) (i : Nat) : Except PyErr (Bracket × Nat) :=
  match simRegions b.regions none none none none d i with
  | Except.error err => Except.error err
  | Except.ok (rs, (mw, s, e, w), j) =>
    match mw, w with
    | some midwest, some west =>
      (match pick_winner midwest west 6 (d j) with
       | Except.error err => Except.error err
       | Except.ok f1 =>
         match s, e with
         | some south, some east =>
           (match pick_winner south east 6 (d (j + 1)) with
            | Except.error err => Except.error err
            | Except.ok f2 =>
              match pick_winner f1 f2 7 (d (j + 2)) with
              | Except.error err => Except.error err
              | Except.ok champ =>
                Except.ok ({ b with
                             regions := rs
                             finalists := some [f1, f2]
                             champion := some champ }, j + 3))
         | _, _ => Except.error PyErr.typeError)
    | _, _ => Except.error PyErr.typeError

/-- Embeds `num_champion_simulation_runs = 20000`. -/
def num_champion_simulation_runs : Nat := 20000

/-- Embeds the champion tally update `champions[bracket.champion] += 1`
(with the `not in` initialization); a new key is appended, matching dict
insertion order. -/
def incr : List (Team × Nat) → Team → List (Team × Nat)
  | [], c => [(c, 1)]
  | (t, n) :: rest, c =>
    if t = c then (t, n + 1) :: rest else (t, n) :: incr rest c

/-- Count recorded for a team in the tally (0 when absent). -/
def lookupN : List (Team × Nat) → Team → Nat
  | [], _ => 0
  | (a, n) :: rest, t => if a = t then n else lookupN rest t

/-- Embeds the champion-mode loop
`for i in xrange(0, num_champion_simulation_runs): bracket.simulate(); ...`:
the SAME bracket value is re-simulated and threaded from run to run (the
source never copies it here), and the champion tally is updated after each
run.  The source dict `champions` is keyed by the persistent `Team` OBJECT
of the threaded bracket, whose only field mutated between runs is
`seed_slot`; that identity is modelled by tallying the champion with its
seed slot reset, the stable record of the entrant (for brackets whose
entrant records are pairwise distinct this is exactly Python object
identity, so an entrant has one tally key however its effective seed ended
each run).  The champion is always set on return from `Bracket.simulate`,
so the `none` branch is unreachable. -/
def simulate_runs : Nat → Bracket → List (Team × Nat) → (Nat → Rat) → Nat →
    Except PyErr (Bracket × List (Team × Nat) × Nat)
  | 0, b, tally, _, i => Except.ok (b, tally, i)
  | n + 1, b, tally, d, i =>
    match Bracket.simulate b d i with
    | Except.error e => Except.error e
    | Except.ok (b2, i2) =>
      match b2.champion with
      | none => Except.error PyErr.typeError
      | some c => simulate_runs n b2 (incr tally (Team.reset c)) d i2

/-- Descending order on `(num_wins, name)` pairs used by
`output_list.sort(reverse=True)`: Python compares such tuples
lexicographically and `reverse=True` sorts them descending. -/
def winsDesc (a b : Nat × String) : Prop :=
  b.1 < a.1 ∨ (b.1 = a.1 ∧ b.2 ≤ a.2)

instance : DecidableRel winsDesc := fun a b =>
  inferInstanceAs (Decidable (b.1 < a.1 ∨ (b.1 = a.1 ∧ b.2 ≤ a.2)))

instance : IsTotal (Nat × String) winsDesc :=
  ⟨by
    intro a b
    rcases lt_trichotomy a.1 b.1 with h | h | h
    · exact Or.inr (Or.inl h)
    · rcases le_total a.2 b.2 with h2 | h2
      · exact Or.inr (Or.inr ⟨h, h2⟩)
      · exact Or.inl (Or.inr ⟨h.symm, h2⟩)
    · exact Or.inl (Or.inl h)⟩

instance : IsTrans (Nat × String) winsDesc :=
  ⟨by
    intro a b c hab hbc
    rcases hab with h1 | ⟨h1, h1b⟩
    · rcases hbc with h2 | ⟨h2, _⟩
      · exact Or.inl (lt_trans h2 h1)
      · exact Or.inl (by omega)
    · rcases hbc with h2 | ⟨h2, h2b⟩
      · exact Or.inl (by omega)
      · exact Or.inr ⟨h2.trans h1, h2b.trans h1b⟩⟩

/-- Embeds unconditioned champion mode (the `-c` branch of `predictor`):
run `num_champion_simulation_runs` simulations on one bracket, tally the
champions, build `output_list = [(count, name)]` sorted descending, and
report the entries with `win_percent >= 1` where
`win_percent = count * 100 / num_champion_simulation_runs`.  Returns the
tally, the sorted list, the reported sublist, and the threaded state. -/
def champion_mode (b : Bracket) (d : Nat → Rat) (i : Nat) :
    Except PyErr (List (Team × Nat) × List (Nat × String) × List (Nat × String) × Bracket × Nat) :=
  match simulate_runs num_champion_simulation_runs b [] d i with
  | Except.error e => Except.error e
  | Except.ok (b2, tally, i2) =>
    let output_list := List.insertionSort winsDesc (tally.map (fun p => (p.2, p.1.name)))
    let reported := output_list.filter
      (fun p => decide ((1 : Rat) ≤ (p.1 : Rat) * 100 / (num_champion_simulation_runs : Rat)))
    Except.ok (tally, output_list, reported, b2, i2)

end Predict

namespace Predict

deriving instance DecidableEq for Except

/-! ## Concrete data used by witnesses and counterexamples -/

/-- A team with every round probability 1/2 (consistent conditional table:
1/2 for round 1, then 1 for the later rounds). -/
def mkTeam (tname rname : String) (seed : Int) : Team :=
  { name := tname
    region := rname
    seed := seed
    round_odds := [some (1/2), some (1/2), some (1/2), some (1/2), some (1/2), some (1/2),
                   some (1/2)]
    conditional_round_odds := [some (1/2), some 1, some 1, some 1, some 1, some 1, some 1]
    seed_slot := seed }

/-- Sixteen teams seeded 1..16 for one region. -/
def mkRegionTeams (rname : String) : List Team :=
  (List.range 16).map (fun k => mkTeam (rname ++ toString (k + 1)) rname ((k : Int) + 1))

/-- A four-region, sixty-four team bracket in its loaded state. -/
def B0 : Bracket :=
  { regions := [⟨"Midwest", mkRegionTeams "Midwest", []⟩,
                ⟨"South", mkRegionTeams "South", []⟩,
                ⟨"East", mkRegionTeams "East", []⟩,
                ⟨"West", mkRegionTeams "West", []⟩]
    finalists := none
    champion := none }

/-- The all-zero draw stream: every matchup is decided by the draw 0, so
the first listed team of each pair always wins. -/
def dzero : Nat → Rat := fun _ => 0

/-- The state of one region of `B0` after a simulation under `dzero`: every
higher seed wins, so round k keeps seeds 1..2^(5-k). -/
def simRegionData (rname : String) : Region :=
  ⟨rname, mkRegionTeams rname,
   [(1, mkRegionTeams rname), (2, (mkRegionTeams rname).take 8),
    (3, (mkRegionTeams rname).take 4), (4, (mkRegionTeams rname).take 2),
    (5, (mkRegionTeams rname).take 1)]⟩

/-- The state of `B0` after one full simulation under `dzero`. -/
def B1 : Bracket :=
  { regions := [simRegionData "Midwest", simRegionData "South",
                simRegionData "East", simRegionData "West"]
    finalists := some [mkTeam "Midwest1" "Midwest" 1, mkTeam "South1" "South" 1]
    champion := some (mkTeam "Midwest1" "Midwest" 1) }

/-- Entrant with cumulative odds 1/2 then 1/4; its conditional table is
1/2, 1/2. -/
def c1t1 : Team :=
  ⟨"C1A", "R", 1, [some (1/2), some (1/4)], [some (1/2), some (1/2)], 1⟩

/-- Entrant with cumulative odds 1/4 then 1/4; its conditional table is
1/4, 1. -/
def c1t2 : Team :=
  ⟨"C1B", "R", 2, [some (1/4), some (1/4)], [some (1/4), some 1], 2⟩

/-- Concrete witness teams for C2: a seed-5 entrant with untouched
effective seed 5 and a seed-2 entrant. -/
def c2w1 : Team := ⟨"W5", "R", 5, [some 1, some 1], [some 1, some 1], 5⟩

def c2w2 : Team := ⟨"W2", "R", 2, [some 1, some 1], [some 1, some 1], 2⟩

/-- Winner with an upset history: initial seed 4, effective seed 3. -/
def c2x1 : Team := ⟨"X1", "R", 4, [some 1, some 1], [some 1, some 1], 3⟩

/-- Loser with an upset history: initial seed 5, effective seed 1. -/
def c2x2 : Team := ⟨"X2", "R", 5, [some 1, some 1], [some 1, some 1], 1⟩

def c10t1 : Team := ⟨"Z1", "R", 1, [some 0], [some 0], 1⟩

def c10t2 : Team := ⟨"Z2", "R", 2, [some 0], [some 0], 2⟩

/-- Input independent table: absent for round 1, then 1/4 and 1/8. -/
def c4ro : List (Option Rat) := [none, some (1/4), some (1/8)]

/-- Derived conditional table for `c4ro`: round 2 has no ancestor, round 3
divides 1/8 by 1/4. -/
def c4co : List (Option Rat) := [none, some (1/4), some (1/2)]

def c3t1 : Team := mkTeam "C3A" "R" 1

def c3t2 : Team := mkTeam "C3B" "R" 2

def c3t3 : Team := mkTeam "C3C" "R" 3

/-- A region with an odd field of three entrants on distinct seeds: three
survivors enter round 2. -/
def c3region : Region := ⟨"Midwest", [c3t1, c3t2, c3t3], []⟩

/-- The state `c3region` reaches under `dzero`: round 2 records a single
survivor and the later rounds empty lists. -/
def c3result : Region :=
  ⟨"Midwest", [c3t1, c3t2, c3t3],
   [(1, [c3t1, c3t2, c3t3]), (2, [c3t1]), (3, []), (4, []), (5, [])]⟩

def c6a : Team := ⟨"C6A", "R", 1, [some (1/2)], [some (1/2)], 1⟩

def c6b : Team := ⟨"C6B", "R", 2, [some (1/2)], [some (1/2)], 2⟩

def c6c : Team := ⟨"C6C", "R", 2, [some (1/3)], [some (1/3)], 2⟩

/-- A field with a singleton seed 1 and a play-in pair on seed 2. -/
def c6good : List Team := [c6a, c6b, c6c]

def c6x : Team := ⟨"C6X", "R", 3, [some (1/2)], [some (1/2)], 3⟩

def c6y : Team := ⟨"C6Y", "R", 3, [some (1/2)], [some (1/2)], 3⟩

def c6z : Team := ⟨"C6Z", "R", 3, [some (1/2)], [some (1/2)], 3⟩

/-- A field with three entrants on the same seed. -/
def c6bad : List Team := [c6x, c6y, c6z]

/-- A region with a name outside the configured pairing rules. -/
def atlanticRegion : Region := ⟨"Atlantic", mkRegionTeams "Atlantic", []⟩

/-- A bracket containing the unrecognized region. -/
def badB : Bracket := ⟨[atlanticRegion], none, none⟩

/-! ## Helper lemmas about the matchup resolver -/

/-- When both probability lookups succeed, `pick_winner` reduces to the
draw comparison of the source. -/
theorem pick_winner_eq (t1 t2 : Team) (rn : Nat) (u p1 p2 : Rat)
    (h1 : t1.getitem rn = some p1) (h2 : t2.getitem rn = some p2) :
    pick_winner t1 t2 rn u =
      if u * (p1 + p2) ≤ p1 then
        Except.ok (if t2.seed < t1.seed_slot then { t1 with seed_slot := t2.seed } else t1)
      else
        Except.ok (if t1.seed < t2.seed_slot then { t2 with seed_slot := t1.seed } else t2) := by
  unfold pick_winner
  rw [h1, h2]

/-- When both probability lookups succeed, `pick_winner` cannot fault. -/
theorem pick_winner_isOk (t1 t2 : Team) (rn : Nat) (u : Rat)
    (h1 : (t1.getitem rn).isSome) (h2 : (t2.getitem rn).isSome) :
    ∃ w, pick_winner t1 t2 rn u = Except.ok w := by
  rcases Option.isSome_iff_exists.mp h1 with ⟨p1, hp1⟩
  rcases Option.isSome_iff_exists.mp h2 with ⟨p2, hp2⟩
  rw [pick_winner_eq t1 t2 rn u p1 p2 hp1 hp2]
  by_cases h : u * (p1 + p2) ≤ p1
  · rw [if_pos h]; exact ⟨_, rfl⟩
  · rw [if_neg h]; exact ⟨_, rfl⟩

/-! ## Behavior of the concrete bracket under the all-zero draws -/

/-- One simulation under `dzero` maps `B0` to `B1`, consuming 63 draws. -/
theorem b0_run : ∀ i, Bracket.simulate B0 dzero i = Except.ok (B1, i + 63) := by
  intro i
  with_unfolding_all rfl

/-- `B1` is a fixed point of simulation under `dzero`. -/
theorem b1_run : ∀ i, Bracket.simulate B1 dzero i = Except.ok (B1, i + 63) := by
  intro i
  with_unfolding_all rfl

/-! ## C1 -/

/-- C1: the claim says the probability used for each entrant is its
CONDITIONAL probability for the round.  The source computes
`conditional_round_odds` (as both stored tables here verify) but
`pick_winner` indexes `round_odds` through `__getitem__`, so at round 2
with unit draw 2/5 the code compares 1/5 against the cumulative 1/4 and
returns entrant 1, while the conditional probabilities of the claim compare
3/5 against 1/2 and select entrant 2: the conditional table is dead state
and the claimed resolver behavior diverges from the code. -/
theorem c1_conditional_ignored :
    make_conditional c1t1.round_odds = Except.ok c1t1.conditional_round_odds ∧
    make_conditional c1t2.round_odds = Except.ok c1t2.conditional_round_odds ∧
    pick_winner c1t1 c1t2 2 (2/5) = Except.ok c1t1 ∧
    pick_winner_spec c1t1 c1t2 2 (2/5) = Except.ok { c1t2 with seed_slot := 1 } ∧
    pick_winner c1t1 c1t2 2 (2/5) ≠ pick_winner_spec c1t1 c1t2 2 (2/5) := by
  have e3 : pick_winner c1t1 c1t2 2 (2/5) = Except.ok c1t1 := by
    with_unfolding_all rfl
  have e4 : pick_winner_spec c1t1 c1t2 2 (2/5) = Except.ok { c1t2 with seed_slot := 1 } := by
    with_unfolding_all rfl
  refine ⟨by with_unfolding_all rfl, by with_unfolding_all rfl, e3, e4, ?_⟩
  rw [e3, e4]
  intro h
  injection h with h2
  exact absurd (congrArg Team.name h2) (by decide)

/-! ## C2 -/

/-- C2 (amended): the propagation side effect of `pick_winner` uses the
INITIAL seed of the loser, not its effective seed: the winner leaves with
`seed_slot = min (winner seed_slot) (loser seed)`.  In particular a seed-5
entrant whose effective seed still exceeds 2 leaves an upset of a seed-2
entrant with effective seed exactly 2. -/
theorem c2_seed_propagation : ∀ (t1 t2 : Team) (rn : Nat) (u p1 p2 : Rat),
    t1.getitem rn = some p1 → t2.getitem rn = some p2 →
    ((u * (p1 + p2) ≤ p1 →
        pick_winner t1 t2 rn u =
          Except.ok { t1 with seed_slot := min t1.seed_slot t2.seed }) ∧
     (¬ u * (p1 + p2) ≤ p1 →
        pick_winner t1 t2 rn u =
          Except.ok { t2 with seed_slot := min t2.seed_slot t1.seed }) ∧
     (t1.seed = 5 → t2.seed = 2 → 2 < t1.seed_slot → u * (p1 + p2) ≤ p1 →
        pick_winner t1 t2 rn u = Except.ok { t1 with seed_slot := 2 })) := by
  intro t1 t2 rn u p1 p2 h1 h2
  rw [pick_winner_eq t1 t2 rn u p1 p2 h1 h2]
  refine ⟨?_, ?_, ?_⟩
  · intro hle
    rw [if_pos hle]
    by_cases hlt : t2.seed < t1.seed_slot
    · rw [if_pos hlt, min_eq_right (le_of_lt hlt)]
    · rw [if_neg hlt, min_eq_left (le_of_not_lt hlt)]
  · intro hle
    rw [if_neg hle]
    by_cases hlt : t1.seed < t2.seed_slot
    · rw [if_pos hlt, min_eq_right (le_of_lt hlt)]
    · rw [if_neg hlt, min_eq_left (le_of_not_lt hlt)]
  · intro h5 h2seed hslot hle
    rw [if_pos hle, h2seed, if_pos (by omega)]

theorem c2_seed_propagation_witness :
    pick_winner c2w1 c2w2 2 0 = Except.ok { c2w1 with seed_slot := 2 } :=
  (c2_seed_propagation c2w1 c2w2 2 0 1 1 (by with_unfolding_all rfl)
      (by with_unfolding_all rfl)).2.2 rfl rfl (by decide)
    (by with_unfolding_all rfl)

/-- C2 counterexample: the loser has effective seed 1, smaller than the
winner effective seed 3, yet the winner is returned UNCHANGED (slot 3):
the claim, which propagates the loser effective-seed whenever it is
smaller, would require the winner to leave with effective seed 1.  The
code compares and copies the loser INITIAL seed 5 instead. -/
theorem c2_counterexample :
    pick_winner c2x1 c2x2 2 0 = Except.ok c2x1 ∧
    c2x2.seed_slot < c2x1.seed_slot ∧
    (Except.ok c2x1 : Except PyErr Team) ≠
      Except.ok { c2x1 with seed_slot := c2x2.seed_slot } := by
  refine ⟨by with_unfolding_all rfl, by decide, by decide⟩

/-! ## C10 -/

/-- C10: when both looked-up probabilities are exactly 0 the odds range is
0, the modelled uniform draw over the empty interval is 0, and the
non-strict comparison returns the first entrant (at most with its usual
seed-slot side effect applied). -/
theorem c10_zero_odds : ∀ (t1 t2 : Team) (rn : Nat) (u : Rat),
    t1.getitem rn = some 0 → t2.getitem rn = some 0 →
    ∃ t, pick_winner t1 t2 rn u = Except.ok t ∧
      (t = t1 ∨ t = { t1 with seed_slot := t2.seed }) := by
  intro t1 t2 rn u h1 h2
  rw [pick_winner_eq t1 t2 rn u 0 0 h1 h2]
  rw [if_pos (by simp)]
  by_cases hlt : t2.seed < t1.seed_slot
  · rw [if_pos hlt]; exact ⟨_, rfl, Or.inr rfl⟩
  · rw [if_neg hlt]; exact ⟨_, rfl, Or.inl rfl⟩

theorem c10_zero_odds_witness :
    ∃ t, pick_winner c10t1 c10t2 1 (3/7) = Except.ok t ∧
      (t = c10t1 ∨ t = { c10t1 with seed_slot := c10t2.seed }) :=
  c10_zero_odds c10t1 c10t2 1 (3/7) (by with_unfolding_all rfl)
    (by with_unfolding_all rfl)

/-! ## C4 -/

/-- Full characterization of a successful run of the conditional loop: the
head is related to the tracked previous value, and each adjacent pair of
the input fixes the corresponding output entry. -/
theorem cond_loop_spec : ∀ (ro : List (Option Rat)) (prev : Option (Option Rat))
    (co : List (Option Rat)), cond_loop ro prev = Except.ok co →
    co.length = ro.length ∧
    (match prev with
     | none => co[0]? = ro[0]?
     | some none => co[0]? = ro[0]?
     | some (some p) => ∀ q, ro[0]? = some q →
         ∃ x, q = some x ∧ co[0]? = some (some (x / p))) ∧
    (∀ i p q, ro[i]? = some (some p) → ro[i + 1]? = some q →
       ∃ x, q = some x ∧ co[i + 1]? = some (some (x / p))) ∧
    (∀ i, ro[i]? = some none → co[i + 1]? = ro[i + 1]?) := by
  intro ro
  induction ro with
  | nil =>
    intro prev co h
    simp only [cond_loop] at h
    injection h with h
    subst h
    refine ⟨rfl, ?_, ?_, ?_⟩
    · match prev with
      | none => rfl
      | some none => rfl
      | some (some p) => intro q hq; simp at hq
    · intro i p q hq; simp at hq
    · intro i hq; simp at hq
  | cons odd rest ih =>
    intro prev co h
    have step : ∀ (c : List (Option Rat)) (h0 : Option Rat),
        cond_loop rest (some odd) = Except.ok c → co = h0 :: c →
        (h0 :: c).length = (odd :: rest).length ∧
        (∀ i p q, (odd :: rest)[i]? = some (some p) → (odd :: rest)[i + 1]? = some q →
          ∃ x, q = some x ∧ (h0 :: c)[i + 1]? = some (some (x / p))) ∧
        (∀ i, (odd :: rest)[i]? = some none → (h0 :: c)[i + 1]? = (odd :: rest)[i + 1]?) := by
      intro c h0 hc hco
      obtain ⟨hlen, hhead, hpairs, hnones⟩ := ih (some odd) c hc
      refine ⟨by simp [hlen], ?_, ?_⟩
      · intro i p q hp hq
        match i with
        | 0 =>
          simp only [List.getElem?_cons_zero] at hp
          injection hp with hp
          subst hp
          simp only [List.getElem?_cons_succ] at hq ⊢
          exact hhead q hq
        | Nat.succ j =>
          simp only [List.getElem?_cons_succ] at hp hq ⊢
          exact hpairs j p q hp hq
      · intro i hp
        match i with
        | 0 =>
          simp only [List.getElem?_cons_zero] at hp
          injection hp with hp
          subst hp
          simp only [List.getElem?_cons_succ]
          exact hhead
        | Nat.succ j =>
          simp only [List.getElem?_cons_succ] at hp ⊢
          exact hnones j hp
    match prev with
    | none =>
      simp only [cond_loop] at h
      cases hc : cond_loop rest (some odd) with
      | error e => rw [hc] at h; exact absurd h (by simp)
      | ok c =>
        rw [hc] at h
        injection h with h
        obtain ⟨hlen, hpairs, hnones⟩ := step c odd hc h.symm
        subst h
        exact ⟨hlen, by simp, hpairs, hnones⟩
    | some none =>
      simp only [cond_loop] at h
      cases hc : cond_loop rest (some odd) with
      | error e => rw [hc] at h; exact absurd h (by simp)
      | ok c =>
        rw [hc] at h
        injection h with h
        obtain ⟨hlen, hpairs, hnones⟩ := step c odd hc h.symm
        subst h
        exact ⟨hlen, by simp, hpairs, hnones⟩
    | some (some p) =>
      match hodd : odd with
      | none =>
        simp only [cond_loop] at h
        exact absurd h (by simp)
      | some q =>
        simp only [cond_loop] at h
        by_cases hp0 : p = 0
        · rw [if_pos hp0] at h; exact absurd h (by simp)
        · rw [if_neg hp0] at h
          cases hc : cond_loop rest (some (some q)) with
          | error e => rw [hc] at h; exact absurd h (by simp)
          | ok c =>
            rw [hc] at h
            injection h with h
            obtain ⟨hlen, hpairs, hnones⟩ := step c (some (q / p)) hc h.symm
            subst h
            refine ⟨hlen, ?_, hpairs, hnones⟩
            intro q2 hq2
            simp only [List.getElem?_cons_zero] at hq2 ⊢
            injection hq2 with hq2
            exact ⟨q, hq2.symm, rfl⟩

/-- C4: for an entrant whose construction succeeds, the derived conditional
probabilities satisfy conditional[1] = independent[1]; for i > 1,
conditional[i] = independent[i] / independent[i-1] when independent[i-1] is
present (construction forces independent[i] to be present there too), and
conditional[i] = independent[i] when independent[i-1] is absent.  Indices
here are 0-based: entry j of the list is round j+1. -/
theorem c4_conditional_transform : ∀ (ro co : List (Option Rat)),
    make_conditional ro = Except.ok co →
    co.length = ro.length ∧
    co[0]? = ro[0]? ∧
    (∀ i p q, ro[i]? = some (some p) → ro[i + 1]? = some q →
       ∃ x, q = some x ∧ co[i + 1]? = some (some (x / p))) ∧
    (∀ i, ro[i]? = some none → co[i + 1]? = ro[i + 1]?) := by
  intro ro co h
  exact cond_loop_spec ro none co h

theorem c4_conditional_transform_witness :
    c4co[0]? = c4ro[0]? ∧
    c4co[1]? = c4ro[1]? ∧
    (∃ x, (some (1/8 : Rat) : Option Rat) = some x ∧
      c4co[2]? = some (some (x / (1/4)))) := by
  have h : make_conditional c4ro = Except.ok c4co := by with_unfolding_all rfl
  refine ⟨(c4_conditional_transform c4ro c4co h).2.1,
          (c4_conditional_transform c4ro c4co h).2.2.2 0 rfl,
          (c4_conditional_transform c4ro c4co h).2.2.1 1 (1/4) (some (1/8)) ?_ ?_⟩
  · with_unfolding_all rfl
  · with_unfolding_all rfl

/-! ## C3 -/

/-- C3 counterexample: three survivors (an odd count) enter round 2, yet
`Region.simulate` returns successfully instead of failing with a
StructuralError: round 2 records one survivor (the third entrant was
silently dropped by the zip pairing) and no error is raised. -/
theorem c3_counterexample :
    Region.simulate c3region dzero 0 = Except.ok (c3result, 1) ∧
    c3result.teams_by_round.lookup 2 = some [c3t1] := by
  constructor
  · with_unfolding_all rfl
  · with_unfolding_all rfl

/-- Count of successful matchup resolutions equals the pair count. -/
theorem runMatchups_length : ∀ (ps : List (Team × Team)) (rn : Nat) (d : Nat → Rat)
    (i : Nat) (ws : List Team) (i2 : Nat),
    runMatchups ps rn d i = Except.ok (ws, i2) → ws.length = ps.length := by
  intro ps
  induction ps with
  | nil =>
    intro rn d i ws i2 h
    simp only [runMatchups] at h
    injection h with h
    injection h with h1 h2
    subst h1
    rfl
  | cons pr rest ih =>
    intro rn d i ws i2 h
    match pr with
    | (t1, t2) =>
      simp only [runMatchups] at h
      cases hw : pick_winner t1 t2 rn (d i) with
      | error e => rw [hw] at h; exact absurd h (by simp)
      | ok w =>
        rw [hw] at h
        cases hr : runMatchups rest rn d (i + 1) with
        | error e => rw [hr] at h; exact absurd h (by simp)
        | ok p =>
          rw [hr] at h
          match p, hr with
          | (ws2, j), hr =>
            injection h with h
            injection h with h1 h2
            subst h1
            have := ih rn d (i + 1) ws2 j hr
            simp [this]

/-- C3 (amended): a standard round never fails on an odd survivor count;
it resolves floor(n/2) matchups, silently dropping one entrant of the
low-seed half, so a successful round always records floor(n/2)
survivors. -/
theorem c3_odd_round_truncates : ∀ (prev : List Team) (rn : Nat) (d : Nat → Rat)
    (i : Nat) (out : List Team) (i2 : Nat),
    regionRound prev rn d i = Except.ok (out, i2) → out.length = prev.length / 2 := by
  intro prev rn d i out i2 h
  unfold regionRound at h
  cases hm : runMatchups (roundPairs prev) rn d i with
  | error e => rw [hm] at h; exact absurd h (by simp)
  | ok p =>
    rw [hm] at h
    match p, hm with
    | (ws, j), hm =>
      injection h with h
      injection h with h1 h2
      subst h1
      have hlen := runMatchups_length _ rn d i ws j hm
      have hp : (roundPairs prev).length = prev.length / 2 := by
        simp only [roundPairs, List.length_zip, List.length_take,
          List.length_insertionSort, List.length_drop]
        omega
      rw [List.length_insertionSort, hlen, hp]

theorem c3_odd_round_truncates_witness :
    ([c3t1] : List Team).length = ([c3t1, c3t2, c3t3] : List Team).length / 2 :=
  c3_odd_round_truncates [c3t1, c3t2, c3t3] 2 dzero 0 [c3t1] 1
    (by with_unfolding_all rfl)

/-! ## C7 -/

/-- Inversion of a successful `Region.simulate`: the recorded survivor map
is rounds 1..5, the play-in result chained through `regionRound`. -/
theorem region_simulate_inv :
    ∀ (r : Region) (d : Nat → Rat) (i : Nat) (r2 : Region) (i2 : Nat),
       Region.simulate r d i = Except.ok (r2, i2) →
       ∃ l1 l2 l3 l4 l5 j1 j2 j3 j4 j5,
         playin (seedGroups (r.teams.map Team.reset)) d i = Except.ok (l1, j1) ∧
         regionRound l1 2 d j1 = Except.ok (l2, j2) ∧
         regionRound l2 3 d j2 = Except.ok (l3, j3) ∧
         regionRound l3 4 d j3 = Except.ok (l4, j4) ∧
         regionRound l4 5 d j4 = Except.ok (l5, j5) ∧
         r2 = { r with
                teams := r.teams.map Team.reset
                teams_by_round := [(1, l1), (2, l2), (3, l3), (4, l4), (5, l5)] } ∧
         i2 = j5 := by
  intro r d i r2 i2 h
  simp only [Region.simulate] at h
  split at h
  next e heq => exact absurd h (by simp)
  next l1 j1 h1 =>
    split at h
    next e heq => exact absurd h (by simp)
    next l2 j2 h2 =>
      split at h
      next e heq => exact absurd h (by simp)
      next l3 j3 h3 =>
        split at h
        next e heq => exact absurd h (by simp)
        next l4 j4 h4 =>
          split at h
          next e heq => exact absurd h (by simp)
          next l5 j5 h5 =>
            injection h with h
            injection h with ha hb
            exact ⟨l1, l2, l3, l4, l5, j1, j2, j3, j4, j5,
                   h1, h2, h3, h4, h5, ha.symm, hb.symm⟩

/-- C7: part one is a refinement: the standard-round body of the source
(`regionRound`, the loop body recorded by `Region.simulate`) coincides with
the round pipeline as the spec words it (`standardRoundSpec`): sort the
previous survivors by effective-seed ascending, split at half, re-sort the
low half descending, pair index-for-index, resolve each pair, sort the
winners by initial seed.  Part two shows `Region.simulate` records exactly
this chain: on success the stored survivor map is rounds 1..5 where each
standard round list is the `regionRound` image of the previous round
list. -/
theorem c7_standard_rounds :
    (∀ (prev : List Team) (rn : Nat) (d : Nat → Rat) (i : Nat),
       regionRound prev rn d i = standardRoundSpec prev rn d i) ∧
    (∀ (r : Region) (d : Nat → Rat) (i : Nat) (r2 : Region) (i2 : Nat),
       Region.simulate r d i = Except.ok (r2, i2) →
       ∃ l1 l2 l3 l4 l5 j1 j2 j3 j4 j5,
         playin (seedGroups (r.teams.map Team.reset)) d i = Except.ok (l1, j1) ∧
         regionRound l1 2 d j1 = Except.ok (l2, j2) ∧
         regionRound l2 3 d j2 = Except.ok (l3, j3) ∧
         regionRound l3 4 d j3 = Except.ok (l4, j4) ∧
         regionRound l4 5 d j4 = Except.ok (l5, j5) ∧
         r2 = { r with
                teams := r.teams.map Team.reset
                teams_by_round := [(1, l1), (2, l2), (3, l3), (4, l4), (5, l5)] } ∧
         i2 = j5) :=
  ⟨fun _ _ _ _ => rfl, region_simulate_inv⟩

theorem c7_standard_rounds_witness :
    (regionRound ((mkRegionTeams "Midwest").take 4) 4 dzero 0 =
      standardRoundSpec ((mkRegionTeams "Midwest").take 4) 4 dzero 0) ∧
    (∃ l1 l2 l3 l4 l5 j1 j2 j3 j4 j5,
       playin (seedGroups ((Region.mk "Midwest" (mkRegionTeams "Midwest") []).teams.map
         Team.reset)) dzero 0 = Except.ok (l1, j1) ∧
       regionRound l1 2 dzero j1 = Except.ok (l2, j2) ∧
       regionRound l2 3 dzero j2 = Except.ok (l3, j3) ∧
       regionRound l3 4 dzero j3 = Except.ok (l4, j4) ∧
       regionRound l4 5 dzero j4 = Except.ok (l5, j5) ∧
       simRegionData "Midwest" =
         { Region.mk "Midwest" (mkRegionTeams "Midwest") [] with
           teams := (Region.mk "Midwest" (mkRegionTeams "Midwest") []).teams.map Team.reset
           teams_by_round := [(1, l1), (2, l2), (3, l3), (4, l4), (5, l5)] } ∧
       (15 : Nat) = j5) :=
  ⟨c7_standard_rounds.1 ((mkRegionTeams "Midwest").take 4) 4 dzero 0,
   c7_standard_rounds.2 (Region.mk "Midwest" (mkRegionTeams "Midwest") []) dzero 0
     (simRegionData "Midwest") 15 (by with_unfolding_all rfl)⟩

/-! ## C6 -/

/-- Teams of the same seed group all carry that seed: the play-in grouping
really groups by initial seed. -/
theorem seedGroups_seed : ∀ (ts : List Team), ∀ p ∈ seedGroups ts, ∀ t ∈ p.2, t.seed = p.1 := by
  intro ts p hp t ht
  simp only [seedGroups, List.mem_map] at hp
  obtain ⟨s, _, rfl⟩ := hp
  simp only at ht
  exact of_decide_eq_true (List.mem_filter.mp ht).2

/-- Successful play-in: when every seed group has one or two entrants (and
the two-entrant groups can be resolved), the round succeeds with one
survivor per group, singles advancing unchanged and pairs resolved by the
matchup resolver. -/
theorem playin_ok : ∀ (gs : List (Int × List Team)) (d : Nat → Rat) (i : Nat),
    (∀ p ∈ gs, p.2.length = 2 → ∀ t ∈ p.2, (t.getitem 1).isSome) →
    (∀ p ∈ gs, p.2.length = 1 ∨ p.2.length = 2) →
    ∃ out i2, playin gs d i = Except.ok (out, i2) ∧
      List.Forall₂ (fun (p : Int × List Team) (t : Team) =>
        p.2 = [t] ∨ ∃ a b u, p.2 = [a, b] ∧ pick_winner a b 1 u = Except.ok t) gs out := by
  intro gs
  induction gs with
  | nil => exact fun d i _ _ => ⟨[], i, rfl, List.Forall₂.nil⟩
  | cons hd rest ih =>
    intro d i hodds hsz
    match hd with
    | (s, g) =>
      rcases hsz (s, g) (List.mem_cons_self _ _) with h1 | h2
      · obtain ⟨t, rfl⟩ := List.length_eq_one.mp h1
        obtain ⟨out, i2, hok, hfa⟩ := ih d i
          (fun p hp => hodds p (List.mem_cons_of_mem _ hp))
          (fun p hp => hsz p (List.mem_cons_of_mem _ hp))
        refine ⟨t :: out, i2, ?_, List.Forall₂.cons (Or.inl rfl) hfa⟩
        simp only [playin]
        rw [hok]
      · obtain ⟨a, b, rfl⟩ := List.length_eq_two.mp h2
        have ha : (a.getitem 1).isSome :=
          hodds (s, [a, b]) (List.mem_cons_self _ _) rfl a (by simp)
        have hb : (b.getitem 1).isSome :=
          hodds (s, [a, b]) (List.mem_cons_self _ _) rfl b (by simp)
        obtain ⟨w, hw⟩ := pick_winner_isOk a b 1 (d i) ha hb
        obtain ⟨out, i2, hok, hfa⟩ := ih d (i + 1)
          (fun p hp => hodds p (List.mem_cons_of_mem _ hp))
          (fun p hp => hsz p (List.mem_cons_of_mem _ hp))
        refine ⟨w :: out, i2, ?_, List.Forall₂.cons (Or.inr ⟨a, b, d i, rfl, hw⟩) hfa⟩
        simp only [playin]
        rw [hw, hok]

/-- Failing play-in: a seed group with an entrant count other than one or
two makes the play-in fail with the structural error of the source
(provided the two-entrant groups reached before it resolve). -/
theorem playin_structural : ∀ (gs : List (Int × List Team)) (d : Nat → Rat) (i : Nat),
    (∀ p ∈ gs, p.2.length = 2 → ∀ t ∈ p.2, (t.getitem 1).isSome) →
    (∃ p ∈ gs, p.2.length ≠ 1 ∧ p.2.length ≠ 2) →
    ∃ msg, playin gs d i = Except.error (PyErr.structural msg) := by
  intro gs
  induction gs with
  | nil =>
    intro d i _ hbad
    obtain ⟨p, hp, _⟩ := hbad
    exact absurd hp (by simp)
  | cons hd rest ih =>
    intro d i hodds hbad
    match hd with
    | (s, g) =>
      match g with
      | [] => exact ⟨_, rfl⟩
      | [t] =>
        have hrest : ∃ p ∈ rest, p.2.length ≠ 1 ∧ p.2.length ≠ 2 := by
          obtain ⟨p, hp, hbadp⟩ := hbad
          rcases List.mem_cons.mp hp with rfl | hmem
          · exact absurd rfl hbadp.1
          · exact ⟨p, hmem, hbadp⟩
        obtain ⟨msg, hmsg⟩ := ih d i (fun p hp => hodds p (List.mem_cons_of_mem _ hp)) hrest
        refine ⟨msg, ?_⟩
        simp only [playin]
        rw [hmsg]
      | [a, b] =>
        have ha : (a.getitem 1).isSome :=
          hodds (s, [a, b]) (List.mem_cons_self _ _) rfl a (by simp)
        have hb : (b.getitem 1).isSome :=
          hodds (s, [a, b]) (List.mem_cons_self _ _) rfl b (by simp)
        obtain ⟨w, hw⟩ := pick_winner_isOk a b 1 (d i) ha hb
        have hrest : ∃ p ∈ rest, p.2.length ≠ 1 ∧ p.2.length ≠ 2 := by
          obtain ⟨p, hp, hbadp⟩ := hbad
          rcases List.mem_cons.mp hp with rfl | hmem
          · exact absurd rfl hbadp.2
          · exact ⟨p, hmem, hbadp⟩
        obtain ⟨msg, hmsg⟩ := ih d (i + 1)
          (fun p hp => hodds p (List.mem_cons_of_mem _ hp)) hrest
        refine ⟨msg, ?_⟩
        simp only [playin]
        rw [hw, hmsg]
      | a :: b :: c :: g2 => exact ⟨_, rfl⟩

/-- C6: the play-in phase of `Region.simulate` groups entrants by initial
seed (`seedGroups`, first conjunct); given that each two-entrant group can
be resolved, a field whose groups all have one or two entrants yields
exactly one survivor per seed (singles advancing automatically, pairs by a
round-1 matchup), and any group with another entrant count is a fatal
structural error. -/
theorem c6_playin_round : ∀ (ts : List Team) (d : Nat → Rat) (i : Nat),
    (∀ p ∈ seedGroups ts, ∀ t ∈ p.2, t.seed = p.1) ∧
    ((∀ p ∈ seedGroups ts, p.2.length = 2 → ∀ t ∈ p.2, (t.getitem 1).isSome) →
      (((∀ p ∈ seedGroups ts, p.2.length = 1 ∨ p.2.length = 2) →
         ∃ out i2, playin (seedGroups ts) d i = Except.ok (out, i2) ∧
           List.Forall₂ (fun (p : Int × List Team) (t : Team) =>
             p.2 = [t] ∨ ∃ a b u, p.2 = [a, b] ∧ pick_winner a b 1 u = Except.ok t)
             (seedGroups ts) out) ∧
       ((∃ p ∈ seedGroups ts, p.2.length ≠ 1 ∧ p.2.length ≠ 2) →
         ∃ msg, playin (seedGroups ts) d i = Except.error (PyErr.structural msg)))) := by
  intro ts d i
  refine ⟨seedGroups_seed ts, fun hodds => ⟨?_, ?_⟩⟩
  · exact fun hsz => playin_ok (seedGroups ts) d i hodds hsz
  · exact fun hbad => playin_structural (seedGroups ts) d i hodds hbad

theorem c6_playin_round_witness :
    (∃ out i2, playin (seedGroups c6good) dzero 0 = Except.ok (out, i2) ∧
       List.Forall₂ (fun (p : Int × List Team) (t : Team) =>
         p.2 = [t] ∨ ∃ a b u, p.2 = [a, b] ∧ pick_winner a b 1 u = Except.ok t)
         (seedGroups c6good) out) ∧
    (∃ msg, playin (seedGroups c6bad) dzero 0 = Except.error (PyErr.structural msg)) :=
  ⟨((c6_playin_round c6good dzero 0).2 (by decide)).1 (by decide),
   ((c6_playin_round c6bad dzero 0).2 (by decide)).2 (by decide)⟩

/-! ## C5 -/

/-- Simulating a copied region equals simulating the region itself: the
simulation begins by resetting every seed slot and rebuilding the round
map, which is exactly what the copy resets. -/
theorem region_simulate_copy : ∀ (r : Region) (d : Nat → Rat) (i : Nat),
    Region.simulate (Region.copy r) d i = Region.simulate r d i := by
  intro r d i
  simp only [Region.simulate, Region.copy]
  rw [List.map_map, show Team.reset ∘ Team.copy = Team.reset from funext fun t => rfl]

/-- The region loop is insensitive to copying the regions first. -/
theorem simRegions_copy : ∀ (l : List Region) (mw s e w : Option Team) (d : Nat → Rat)
    (i : Nat), simRegions (l.map Region.copy) mw s e w d i = simRegions l mw s e w d i := by
  intro l
  induction l with
  | nil => intro mw s e w d i; rfl
  | cons r rest ih =>
    intro mw s e w d i
    simp only [List.map_cons, simRegions]
    rw [region_simulate_copy r d i]
    split
    · rfl
    next r2 i2 _ =>
      split
      · rfl
      next winner _ =>
        split
        · rfl
        next mw2 s2 e2 w2 _ =>
          rw [ih mw2 s2 e2 w2 d i2]

/-- C5 (amended): a full simulation of a deep copy of the bracket gives
exactly the result of simulating the bracket itself: because every
`Region.simulate` starts by clearing its round results and resetting the
effective-seeds, runs that reuse the same bracket behave as if each had
received a fresh deep copy. -/
theorem c5_run_on_copy : ∀ (b : Bracket) (d : Nat → Rat) (i : Nat),
    Bracket.simulate (Bracket.copy b) d i = Bracket.simulate b d i := by
  intro b d i
  simp only [Bracket.simulate, Bracket.copy]
  rw [simRegions_copy]

/-- C5 counterexample: in unconditioned champion mode the bracket entering
run 2 is the bracket value LEFT BY run 1 (the loop threads one bracket and
never copies), and that value is not a fresh deep copy of anything: a deep
copy always carries empty per-round results, while the run-1 output records
five rounds in every region.  The claim, by which every one of the N runs
operates on a freshly deep-copied bracket, therefore fails at run 2. -/
theorem c5_counterexample :
    simulate_runs num_champion_simulation_runs B0 [] dzero 0 =
      simulate_runs (num_champion_simulation_runs - 1) B1
        [(mkTeam "Midwest1" "Midwest" 1, 1)] dzero 63 ∧
    ¬ ∃ b : Bracket, B1 = Bracket.copy b := by
  constructor
  · have step : ∀ (n : Nat) (tal : List (Team × Nat)) (i : Nat),
        simulate_runs (n + 1) B0 tal dzero i =
          simulate_runs n B1 (incr tal (mkTeam "Midwest1" "Midwest" 1)) dzero (i + 63) := by
      intro n tal i
      simp only [simulate_runs]
      rw [b0_run i]
      with_unfolding_all rfl
    exact step 19999 [] 0
  · rintro ⟨b, hb⟩
    cases b with
    | mk rl f c =>
      cases rl with
      | nil =>
        have h4 : B1.regions.length = 0 := by rw [hb]; rfl
        exact absurd h4 (by decide)
      | cons r rest =>
        have h5 : B1.regions.head?.map (fun rg => rg.teams_by_round.length) = some 0 := by
          rw [hb]; rfl
        exact absurd h5 (by decide)

/-! ## C8 -/

/-- A simulated region keeps its name. -/
theorem region_simulate_name : ∀ (r : Region) (d : Nat → Rat) (i : Nat) (r2 : Region)
    (i2 : Nat), Region.simulate r d i = Except.ok (r2, i2) → r2.name = r.name := by
  intro r d i r2 i2 h
  obtain ⟨l1, l2, l3, l4, l5, j1, j2, j3, j4, j5, _, _, _, _, _, hr2, _⟩ :=
    region_simulate_inv r d i r2 i2 h
  rw [hr2]

/-- An unrecognized region name makes the winner assignment fail with the
structural error of the source. -/
theorem assignWinner_bad (rname : String) (winner : Team) (mw s e w : Option Team)
    (h : rname ∉ (["Midwest", "South", "East", "West"] : List String)) :
    assignWinner rname winner mw s e w =
      Except.error (PyErr.structural ("Region " ++ rname ++ " not recognized")) := by
  simp only [List.mem_cons, List.not_mem_nil, or_false, not_or] at h
  obtain ⟨h1, h2, h3, h4⟩ := h
  simp only [assignWinner, if_neg h1, if_neg h2, if_neg h3, if_neg h4]

/-- A recognized region name always assigns the winner to a slot. -/
theorem assignWinner_good (rname : String) (winner : Team) (mw s e w : Option Team)
    (h : rname ∈ (["Midwest", "South", "East", "West"] : List String)) :
    ∃ tup, assignWinner rname winner mw s e w = Except.ok tup := by
  simp only [List.mem_cons, List.not_mem_nil, or_false] at h
  rcases h with rfl | rfl | rfl | rfl
  · exact ⟨_, rfl⟩
  · exact ⟨_, rfl⟩
  · exact ⟨_, rfl⟩
  · exact ⟨_, rfl⟩

/-- Inversion of a successful winner extraction. -/
theorem regionWinner_ok (r2 : Region) (t : Team) (h : regionWinner r2 = Except.ok t) :
    (r2.teams_by_round.lookup 5).bind List.head? = some t := by
  unfold regionWinner at h
  split at h
  · exact absurd h (by simp)
  next t2 heq =>
    injection h with h
    rw [← h]
    exact heq

/-- When every region of the list simulates to a winner, a region with an
unrecognized name makes the region loop fail with the structural error of
the source. -/
theorem simRegions_badname : ∀ (l : List Region) (mw s e w : Option Team) (d : Nat → Rat)
    (i : Nat),
    (∀ r ∈ l, ∀ j, ∃ r2 j2 t, Region.simulate r d j = Except.ok (r2, j2) ∧
        (r2.teams_by_round.lookup 5).bind List.head? = some t) →
    (∃ r ∈ l, r.name ∉ (["Midwest", "South", "East", "West"] : List String)) →
    ∃ msg, simRegions l mw s e w d i = Except.error (PyErr.structural msg) := by
  intro l
  induction l with
  | nil =>
    intro mw s e w d i _ hbad
    obtain ⟨p, hp, _⟩ := hbad
    exact absurd hp (by simp)
  | cons r rest ih =>
    intro mw s e w d i hgood hbad
    obtain ⟨r2, j2, t, hsim, hwin⟩ := hgood r (List.mem_cons_self _ _) i
    have hname := region_simulate_name r d i r2 j2 hsim
    have hrw : regionWinner r2 = Except.ok t := by simp only [regionWinner, hwin]
    by_cases hmem : r.name ∈ (["Midwest", "South", "East", "West"] : List String)
    · have hrest : ∃ p ∈ rest, p.name ∉ (["Midwest", "South", "East", "West"] : List String) := by
        obtain ⟨p, hp, hbadp⟩ := hbad
        rcases List.mem_cons.mp hp with rfl | hm
        · exact absurd hmem hbadp
        · exact ⟨p, hm, hbadp⟩
      obtain ⟨tup, htup⟩ := assignWinner_good r2.name t mw s e w (by rw [hname]; exact hmem)
      match tup, htup with
      | (mw2, s2, e2, w2), htup =>
        obtain ⟨msg, hmsg⟩ :=
          ih mw2 s2 e2 w2 d j2 (fun p hp j => hgood p (List.mem_cons_of_mem _ hp) j) hrest
        exact ⟨msg, by simp only [simRegions, hsim, hrw, htup, hmsg]⟩
    · refine ⟨"Region " ++ r.name ++ " not recognized", ?_⟩
      have has := assignWinner_bad r2.name t mw s e w (by rw [hname]; exact hmem)
      rw [hname] at has
      simp only [simRegions, hsim, hrw, hname, has]

/-- On success, every region recorded by the region loop has a round-5
winner. -/
theorem simRegions_winners : ∀ (l : List Region) (mw s e w : Option Team) (d : Nat → Rat)
    (i : Nat) (rs : List Region)
    (tup : Option Team × Option Team × Option Team × Option Team) (i3 : Nat),
    simRegions l mw s e w d i = Except.ok (rs, tup, i3) →
    ∀ r2 ∈ rs, ∃ t, (r2.teams_by_round.lookup 5).bind List.head? = some t := by
  intro l
  induction l with
  | nil =>
    intro mw s e w d i rs tup i3 h
    simp only [simRegions] at h
    injection h with h
    injection h with h1 h2
    subst h1
    intro r2 hr2
    exact absurd hr2 (by simp)
  | cons r rest ih =>
    intro mw s e w d i rs tup i3 h
    simp only [simRegions] at h
    split at h
    next err heq => exact absurd h (by simp)
    next r2 i2 heq1 =>
      split at h
      next err heq => exact absurd h (by simp)
      next winner heqw =>
        split at h
        next err heq => exact absurd h (by simp)
        next mw2 s2 e2 w2 heqa =>
          split at h
          next err heq => exact absurd h (by simp)
          next rs2 tup2 i4 heqr =>
            injection h with h
            injection h with h1 h2
            subst h1
            intro r0 hr0
            rcases List.mem_cons.mp hr0 with rfl | hm
            · exact ⟨winner, regionWinner_ok r0 winner heqw⟩
            · exact ih mw2 s2 e2 w2 d i2 rs2 tup2 i4 heqr r0 hm

/-- C8: the championship stage of `Bracket.simulate`.  Conjunct one: if
every region would simulate to a winner but some region name is not among
the configured four, the simulation fails with the structural error of the
source.  Conjunct two: a successful simulation resolves every division to a
round-5 winner, assigns the four division winners to the four named slots,
resolves Midwest against West and South against East at round 6, and the
two finalists at round 7 for the champion, consuming three draws after the
region loop. -/
theorem c8_championship : ∀ (b : Bracket) (d : Nat → Rat) (i : Nat),
    ((∀ r ∈ b.regions, ∀ j, ∃ r2 j2 t, Region.simulate r d j = Except.ok (r2, j2) ∧
        (r2.teams_by_round.lookup 5).bind List.head? = some t) →
      (∃ r ∈ b.regions, r.name ∉ (["Midwest", "South", "East", "West"] : List String)) →
      ∃ msg, Bracket.simulate b d i = Except.error (PyErr.structural msg)) ∧
    (∀ (b2 : Bracket) (i2 : Nat), Bracket.simulate b d i = Except.ok (b2, i2) →
      ∃ rs m s e w j f1 f2 champ,
        simRegions b.regions none none none none d i =
          Except.ok (rs, (some m, some s, some e, some w), j) ∧
        pick_winner m w 6 (d j) = Except.ok f1 ∧
        pick_winner s e 6 (d (j + 1)) = Except.ok f2 ∧
        pick_winner f1 f2 7 (d (j + 2)) = Except.ok champ ∧
        b2 = { b with regions := rs, finalists := some [f1, f2], champion := some champ } ∧
        i2 = j + 3 ∧
        (∀ r2 ∈ rs, ∃ t, (r2.teams_by_round.lookup 5).bind List.head? = some t)) := by
  intro b d i
  constructor
  · intro hgood hbad
    obtain ⟨msg, hmsg⟩ := simRegions_badname b.regions none none none none d i hgood hbad
    exact ⟨msg, by simp only [Bracket.simulate, hmsg]⟩
  · intro b2 i2 h
    simp only [Bracket.simulate] at h
    cases h1 : simRegions b.regions none none none none d i with
    | error err =>
      simp only [h1] at h
      exact absurd h (by simp)
    | ok triple =>
      obtain ⟨rs, ⟨mw, s, e, w⟩, j⟩ := triple
      simp only [h1] at h
      cases mw with
      | none => cases w <;> simp at h
      | some midwest =>
        cases w with
        | none => simp at h
        | some west =>
          cases h2 : pick_winner midwest west 6 (d j) with
          | error err =>
            simp only [h2] at h
            exact absurd h (by simp)
          | ok f1 =>
            simp only [h2] at h
            cases s with
            | none => cases e <;> simp at h
            | some south =>
              cases e with
              | none => simp at h
              | some east =>
                cases h3 : pick_winner south east 6 (d (j + 1)) with
                | error err =>
                  simp only [h3] at h
                  exact absurd h (by simp)
                | ok f2 =>
                  simp only [h3] at h
                  cases h4 : pick_winner f1 f2 7 (d (j + 2)) with
                  | error err =>
                    simp only [h4] at h
                    exact absurd h (by simp)
                  | ok champ =>
                    simp only [h4] at h
                    injection h with h
                    injection h with ha hb
                    exact ⟨rs, midwest, south, east, west, j, f1, f2, champ, rfl,
                           h2, h3, h4, ha.symm, hb.symm,
                           simRegions_winners b.regions none none none none d i rs
                             (some midwest, some south, some east, some west) j h1⟩

theorem c8_championship_witness :
    (∃ msg, Bracket.simulate badB dzero 0 = Except.error (PyErr.structural msg)) ∧
    (∃ rs m s e w j f1 f2 champ,
       simRegions B0.regions none none none none dzero 0 =
         Except.ok (rs, (some m, some s, some e, some w), j) ∧
       pick_winner m w 6 (dzero j) = Except.ok f1 ∧
       pick_winner s e 6 (dzero (j + 1)) = Except.ok f2 ∧
       pick_winner f1 f2 7 (dzero (j + 2)) = Except.ok champ ∧
       B1 = { B0 with regions := rs, finalists := some [f1, f2], champion := some champ } ∧
       0 + 63 = j + 3 ∧
       (∀ r2 ∈ rs, ∃ t, (r2.teams_by_round.lookup 5).bind List.head? = some t)) :=
  ⟨(c8_championship badB dzero 0).1
    (by
      intro r hr j
      rcases List.mem_cons.mp hr with rfl | hm
      · exact ⟨simRegionData "Atlantic", j + 15, mkTeam "Atlantic1" "Atlantic" 1,
          by with_unfolding_all rfl, by with_unfolding_all rfl⟩
      · exact absurd hm (by simp))
    ⟨atlanticRegion, by simp [badB], by decide⟩,
   (c8_championship B0 dzero 0).2 B1 (0 + 63) (b0_run 0)⟩

/-! ## C9 -/

/-- Incrementing a champion count raises the tally total by one. -/
theorem incr_total : ∀ (tally : List (Team × Nat)) (c : Team),
    ((incr tally c).map Prod.snd).sum = (tally.map Prod.snd).sum + 1 := by
  intro tally c
  induction tally with
  | nil => simp [incr]
  | cons p rest ih =>
    match p with
    | (a, n) =>
      by_cases h : a = c
      · simp only [incr, if_pos h, List.map_cons, List.sum_cons]
        omega
      · simp only [incr, if_neg h, List.map_cons, List.sum_cons, ih]
        omega

/-- Incrementing a champion count raises exactly that champion count. -/
theorem incr_count : ∀ (tally : List (Team × Nat)) (c t : Team),
    lookupN (incr tally c) t = lookupN tally t + (if t = c then 1 else 0) := by
  intro tally c t
  induction tally with
  | nil =>
    by_cases h : c = t
    · simp [incr, lookupN, h]
    · have h2 : ¬ t = c := fun hh => h hh.symm
      simp [incr, lookupN, h, h2]
  | cons p rest ih =>
    match p with
    | (a, n) =>
      by_cases hac : a = c
      · subst hac
        by_cases hat : a = t
        · subst hat
          simp [incr, lookupN]
        · have h2 : ¬ t = a := fun hh => hat hh.symm
          simp [incr, lookupN, hat, h2]
      · by_cases hat : a = t
        · subst hat
          have h2 : ¬ a = c := hac
          simp [incr, lookupN, h2]
        · simp [incr, lookupN, hac, hat, ih]

/-- Both fields of `Team.reset` read only fields it does not change, so it
is idempotent: the seed-slot-reset record is a fixed point of resetting. -/
theorem reset_reset : ∀ (t : Team), Team.reset (Team.reset t) = Team.reset t := by
  intro t
  rfl

/-- `incr` with a slot-normalized key keeps every tally key slot-normalized
(a persistent entrant record). -/
theorem incr_keys_reset : ∀ (tally : List (Team × Nat)) (c : Team),
    c = Team.reset c →
    (∀ p ∈ tally, p.1 = Team.reset p.1) →
    ∀ p ∈ incr tally c, p.1 = Team.reset p.1 := by
  intro tally c hc
  induction tally with
  | nil =>
    intro _ p hp
    simp only [incr, List.mem_singleton] at hp
    subst hp
    exact hc
  | cons q rest ih =>
    match q with
    | (a, n) =>
      intro hk p hp
      by_cases h : a = c
      · simp only [incr, if_pos h] at hp
        rcases List.mem_cons.mp hp with rfl | hm
        · exact hk (a, n) (List.mem_cons_self _ _)
        · exact hk p (List.mem_cons_of_mem _ hm)
      · simp only [incr, if_neg h] at hp
        rcases List.mem_cons.mp hp with rfl | hm
        · exact hk (a, n) (List.mem_cons_self _ _)
        · exact ih (fun r hr => hk r (List.mem_cons_of_mem _ hr)) p hm

/-- Every key of `incr tally c` is a key of `tally` or the inserted key. -/
theorem incr_keys_mem : ∀ (tally : List (Team × Nat)) (c : Team),
    ∀ p ∈ incr tally c, p.1 ∈ tally.map Prod.fst ∨ p.1 = c := by
  intro tally c
  induction tally with
  | nil =>
    intro p hp
    simp only [incr, List.mem_singleton] at hp
    subst hp
    exact Or.inr rfl
  | cons q rest ih =>
    match q with
    | (a, n) =>
      intro p hp
      by_cases h : a = c
      · simp only [incr, if_pos h] at hp
        rcases List.mem_cons.mp hp with rfl | hm
        · exact Or.inl (by simp)
        · exact Or.inl (List.mem_cons_of_mem _ (List.mem_map_of_mem _ hm))
      · simp only [incr, if_neg h] at hp
        rcases List.mem_cons.mp hp with rfl | hm
        · exact Or.inl (by simp)
        · rcases ih p hm with hk | hk
          · exact Or.inl (List.mem_cons_of_mem _ hk)
          · exact Or.inr hk

/-- `incr` keeps the tally keys pairwise distinct, mirroring the keys of the
source's `champions` dict: a new key is appended only when no existing key
matches it. -/
theorem incr_keys_distinct : ∀ (tally : List (Team × Nat)) (c : Team),
    List.Pairwise (fun p q => p.1 ≠ q.1) tally →
    List.Pairwise (fun p q => p.1 ≠ q.1) (incr tally c) := by
  intro tally c
  induction tally with
  | nil =>
    intro _
    simp [incr]
  | cons q rest ih =>
    match q with
    | (a, n) =>
      intro hp
      rw [List.pairwise_cons] at hp
      obtain ⟨hhd, htl⟩ := hp
      by_cases h : a = c
      · simp only [incr, if_pos h]
        exact List.pairwise_cons.mpr ⟨fun q hq => hhd q hq, htl⟩
      · simp only [incr, if_neg h]
        refine List.pairwise_cons.mpr ⟨?_, ih htl⟩
        intro q hq
        rcases incr_keys_mem rest c q hq with hk | hk
        · obtain ⟨r, hr, hrq⟩ := List.mem_map.mp hk
          intro hc
          exact hhd r hr (hc.trans hrq.symm)
        · intro hc
          exact h (hc.trans hk)

/-- Invariant of the champion-mode loop on the tally keys: starting from
slot-normalized, pairwise-distinct keys (e.g. the empty tally), every key of
the final tally is a persistent entrant record (seed slot reset) and the
keys stay pairwise distinct — one entrant has at most one tally entry, so
its wins cannot split across keys however its effective seed ended each
run. -/
theorem simulate_runs_keys : ∀ (n : Nat) (b : Bracket) (tally : List (Team × Nat))
    (d : Nat → Rat) (i : Nat) (b2 : Bracket) (tally2 : List (Team × Nat)) (i2 : Nat),
    simulate_runs n b tally d i = Except.ok (b2, tally2, i2) →
    (∀ p ∈ tally, p.1 = Team.reset p.1) →
    List.Pairwise (fun p q => p.1 ≠ q.1) tally →
    (∀ p ∈ tally2, p.1 = Team.reset p.1) ∧
    List.Pairwise (fun p q => p.1 ≠ q.1) tally2 := by
  intro n
  induction n with
  | zero =>
    intro b tally d i b2 tally2 i2 h hk hnd
    simp only [simulate_runs] at h
    injection h with h
    injection h with ha hb
    injection hb with hb1 hb2
    subst hb1
    exact ⟨hk, hnd⟩
  | succ n ih =>
    intro b tally d i b2 tally2 i2 h hk hnd
    simp only [simulate_runs] at h
    cases h1 : Bracket.simulate b d i with
    | error e =>
      simp only [h1] at h
      exact absurd h (by simp)
    | ok p =>
      obtain ⟨b3, i3⟩ := p
      simp only [h1] at h
      cases h2 : b3.champion with
      | none =>
        simp only [h2] at h
        exact absurd h (by simp)
      | some c =>
        simp only [h2] at h
        exact ih b3 (incr tally (Team.reset c)) d i3 b2 tally2 i2 h
          (incr_keys_reset tally (Team.reset c) (reset_reset c).symm hk)
          (incr_keys_distinct tally (Team.reset c) hnd)

/-- Invariant of the champion-mode loop: a successful pass of n runs tallies
exactly the champions of a length-n list of per-run champions (each taken as
its persistent entrant record, seed slot reset) on top of the incoming
tally. -/
theorem simulate_runs_ok : ∀ (n : Nat) (b : Bracket) (tally : List (Team × Nat))
    (d : Nat → Rat) (i : Nat) (b2 : Bracket) (tally2 : List (Team × Nat)) (i2 : Nat),
    simulate_runs n b tally d i = Except.ok (b2, tally2, i2) →
    ∃ champs : List Team, champs.length = n ∧
      (tally2.map Prod.snd).sum = (tally.map Prod.snd).sum + n ∧
      (∀ t, lookupN tally2 t = lookupN tally t + champs.count t) := by
  intro n
  induction n with
  | zero =>
    intro b tally d i b2 tally2 i2 h
    simp only [simulate_runs] at h
    injection h with h
    injection h with ha hb
    injection hb with hb1 hb2
    subst hb1
    exact ⟨[], rfl, by omega, fun t => by simp⟩
  | succ n ih =>
    intro b tally d i b2 tally2 i2 h
    simp only [simulate_runs] at h
    cases h1 : Bracket.simulate b d i with
    | error e =>
      simp only [h1] at h
      exact absurd h (by simp)
    | ok p =>
      obtain ⟨b3, i3⟩ := p
      simp only [h1] at h
      cases h2 : b3.champion with
      | none =>
        simp only [h2] at h
        exact absurd h (by simp)
      | some c =>
        simp only [h2] at h
        obtain ⟨champs, hlen, hsum, hcount⟩ :=
          ih b3 (incr tally (Team.reset c)) d i3 b2 tally2 i2 h
        refine ⟨Team.reset c :: champs, by simp [hlen], ?_, ?_⟩
        · rw [hsum, incr_total]
          omega
        · intro t
          rw [hcount t, incr_count tally (Team.reset c) t, List.count_cons]
          by_cases htc : t = Team.reset c
          · subst htc
            simp
            omega
          · have hct : ¬ Team.reset c = t := fun hh => htc hh.symm
            simp [htc, hct]

/-- C9: unconditioned champion mode runs exactly
`num_champion_simulation_runs = 20000` simulations (the per-run champions
form a list of that length and the tally totals to it), tallies champion
occurrence counts per entrant — the tally is keyed, like the source's
object-keyed `champions` dict, by the persistent entrant record (seed slot
reset), with pairwise-distinct keys, so one entrant has exactly one tally
entry holding all its wins however its effective seed ended each run — and
reports exactly the `(count, name)` entries of the descending-sorted output
list whose win percentage `count * 100 / 20000` is at least 1, the report
being sorted by count descending. -/
theorem c9_champion_mode :
    num_champion_simulation_runs = 20000 ∧
    ∀ (b : Bracket) (d : Nat → Rat) (i : Nat) (tally : List (Team × Nat))
      (out rep : List (Nat × String)) (b2 : Bracket) (i2 : Nat),
      champion_mode b d i = Except.ok (tally, out, rep, b2, i2) →
      ((tally.map Prod.snd).sum = num_champion_simulation_runs ∧
       (∀ p ∈ tally, p.1 = Team.reset p.1) ∧
       List.Pairwise (fun p q => p.1 ≠ q.1) tally ∧
       (∃ champs : List Team, champs.length = num_champion_simulation_runs ∧
          ∀ t, lookupN tally t = champs.count t) ∧
       out = List.insertionSort winsDesc (tally.map (fun p => (p.2, p.1.name))) ∧
       (∀ q, q ∈ rep ↔ q ∈ out ∧
          (1 : Rat) ≤ (q.1 : Rat) * 100 / (num_champion_simulation_runs : Rat)) ∧
       List.Sorted (fun a b => b.1 ≤ a.1) rep) := by
  refine ⟨rfl, ?_⟩
  intro b d i tally out rep b2 i2 h
  simp only [champion_mode] at h
  cases h1 : simulate_runs num_champion_simulation_runs b [] d i with
  | error e =>
    simp only [h1] at h
    exact absurd h (by simp)
  | ok p =>
    obtain ⟨b3, tally3, i3⟩ := p
    simp only [h1, Except.ok.injEq, Prod.mk.injEq] at h
    obtain ⟨ht, ho, hr, hb, hi⟩ := h
    subst ht
    subst ho
    subst hr
    subst hb
    subst hi
    obtain ⟨champs, hlen, hsum, hcount⟩ := simulate_runs_ok _ b [] d i b3 tally3 i3 h1
    obtain ⟨hkeys, hnd⟩ := simulate_runs_keys _ b [] d i b3 tally3 i3 h1
      (by simp) List.Pairwise.nil
    refine ⟨by simpa using hsum, hkeys, hnd,
      ⟨champs, hlen, fun t => by simpa [lookupN] using hcount t⟩,
      rfl, ?_, ?_⟩
    · intro q
      constructor
      · intro hq
        have hf := List.mem_filter.mp hq
        exact ⟨hf.1, of_decide_eq_true hf.2⟩
      · intro hq
        exact List.mem_filter.mpr ⟨hq.1, decide_eq_true hq.2⟩
    · have hs : List.Sorted winsDesc
          (List.insertionSort winsDesc (tally3.map (fun p => (p.2, p.1.name)))) :=
        List.sorted_insertionSort winsDesc _
      have hs2 : List.Sorted (fun a b => b.1 ≤ a.1)
          (List.insertionSort winsDesc (tally3.map (fun p => (p.2, p.1.name)))) := by
        refine hs.imp ?_
        intro a b hab
        rcases hab with h1' | ⟨h1', _⟩
        · exact le_of_lt h1'
        · exact le_of_eq h1'
      exact hs2.filter _

/-- One step of the champion-mode loop from the fixed point `B1` under
`dzero`: the resident champion count grows by one and 63 draws are
consumed. -/
theorem runs_fix_step : ∀ (n m i : Nat),
    simulate_runs (n + 1) B1 [(mkTeam "Midwest1" "Midwest" 1, m)] dzero i =
      simulate_runs n B1 [(mkTeam "Midwest1" "Midwest" 1, m + 1)] dzero (i + 63) := by
  intro n m i
  with_unfolding_all rfl

/-- Iterating the champion-mode loop from the fixed point `B1`. -/
theorem runs_fix : ∀ (n m i : Nat),
    simulate_runs n B1 [(mkTeam "Midwest1" "Midwest" 1, m)] dzero i =
      Except.ok (B1, [(mkTeam "Midwest1" "Midwest" 1, m + n)], i + 63 * n) := by
  intro n
  induction n with
  | zero => intro m i; simp [simulate_runs]
  | succ n ih =>
    intro m i
    rw [runs_fix_step n m i, ih (m + 1) (i + 63)]
    have e1 : m + 1 + n = m + (n + 1) := by omega
    have e2 : i + 63 + 63 * n = i + 63 * (n + 1) := by omega
    rw [e1, e2]

/-- The full 20000-run champion-mode loop on `B0` under `dzero`: every run
crowns the Midwest seed 1. -/
theorem runs_total : simulate_runs num_champion_simulation_runs B0 [] dzero 0 =
    Except.ok (B1, [(mkTeam "Midwest1" "Midwest" 1, 20000)], 1260000) := by
  have step0 : ∀ (n : Nat) (tal : List (Team × Nat)) (i : Nat),
      simulate_runs (n + 1) B0 tal dzero i =
        simulate_runs n B1 (incr tal (mkTeam "Midwest1" "Midwest" 1)) dzero (i + 63) := by
    intro n tal i
    simp only [simulate_runs]
    rw [b0_run i]
    with_unfolding_all rfl
  rw [show num_champion_simulation_runs = 19999 + 1 from rfl, step0 19999 [] 0]
  show simulate_runs 19999 B1 [(mkTeam "Midwest1" "Midwest" 1, 1)] dzero 63 = _
  rw [runs_fix 19999 1 63]

/-- Unfolding of champion mode along a given run-loop result. -/
theorem champion_mode_eq (b : Bracket) (d : Nat → Rat) (i : Nat) (b2 : Bracket)
    (tally : List (Team × Nat)) (i2 : Nat)
    (h : simulate_runs num_champion_simulation_runs b [] d i = Except.ok (b2, tally, i2)) :
    champion_mode b d i = Except.ok (tally,
      List.insertionSort winsDesc (tally.map (fun p => (p.2, p.1.name))),
      (List.insertionSort winsDesc (tally.map (fun p => (p.2, p.1.name)))).filter
        (fun p => decide ((1 : Rat) ≤ (p.1 : Rat) * 100 / (num_champion_simulation_runs : Rat))),
      b2, i2) := by
  simp only [champion_mode, h]

/-- Champion mode on the concrete bracket `B0` under `dzero`. -/
theorem champion_mode_B0 : champion_mode B0 dzero 0 =
    Except.ok ([(mkTeam "Midwest1" "Midwest" 1, 20000)],
      [(20000, "Midwest1")], [(20000, "Midwest1")], B1, 1260000) := by
  rw [champion_mode_eq B0 dzero 0 B1 [(mkTeam "Midwest1" "Midwest" 1, 20000)] 1260000
    runs_total]
  with_unfolding_all rfl

theorem c9_champion_mode_witness :
    (([(mkTeam "Midwest1" "Midwest" 1, 20000)].map Prod.snd).sum =
       num_champion_simulation_runs ∧
     (∀ p ∈ ([(mkTeam "Midwest1" "Midwest" 1, 20000)] : List (Team × Nat)),
        p.1 = Team.reset p.1) ∧
     List.Pairwise (fun p q => p.1 ≠ q.1)
       ([(mkTeam "Midwest1" "Midwest" 1, 20000)] : List (Team × Nat)) ∧
     (∃ champs : List Team, champs.length = num_champion_simulation_runs ∧
        ∀ t, lookupN [(mkTeam "Midwest1" "Midwest" 1, 20000)] t = champs.count t) ∧
     [(20000, "Midwest1")] = List.insertionSort winsDesc
       ([(mkTeam "Midwest1" "Midwest" 1, 20000)].map (fun p => (p.2, p.1.name))) ∧
     (∀ q, q ∈ ([(20000, "Midwest1")] : List (Nat × String)) ↔
        q ∈ ([(20000, "Midwest1")] : List (Nat × String)) ∧
        (1 : Rat) ≤ (q.1 : Rat) * 100 / (num_champion_simulation_runs : Rat)) ∧
     List.Sorted (fun a b => b.1 ≤ a.1) ([(20000, "Midwest1")] : List (Nat × String))) :=
  c9_champion_mode.2 B0 dzero 0 [(mkTeam "Midwest1" "Midwest" 1, 20000)]
    [(20000, "Midwest1")] [(20000, "Midwest1")] B1 1260000 champion_mode_B0

end Predict
